import Mathlib

/-!
Verification of the SMSDAO/aaveflashloan arbitrage system.

Shallow embedding of:
* `engine/scanner.js` — pool scanning and opportunity matching (`PoolScanner`);
* `engine/config.js`  — token-decimal lookup (`tokenDecimals`);
* `engine/index.js`   — the live scan loop's `ArbParams` construction and loan sizing;
* `engine/executor.js` — `encodeArbParams` ABI encoding;
* `contracts/FlashLoanArbitrageV3.sol` — `executeArbitrage`, `executeOperation`, `_swap`.

Modelling conventions:
* Addresses are modelled by their 160-bit numeric value (`Addr := ℕ`).  The
  JavaScript `.toLowerCase()` calls normalise the hex-string spelling of an
  address and are the identity on this numeric value.
* JavaScript numbers holding prices are IEEE-754 doubles.  `Number(bigint)`
  is modelled exactly by `jsNum` (round to nearest 53-bit significand, ties to
  even); the subsequent division by `1e18` is modelled as exact division in ℚ.
  All arithmetic the matcher then performs on prices is modelled exactly in ℚ.
* Asynchronous chain queries are modelled as environment records
  (`ScanEnv`, `EngineEnv`) supplying the values the external calls return.
* A Solidity revert is an `Except.error`; no effects of the call persist.
-/

set_option maxRecDepth 100000

/-- 160-bit account/contract address, as its numeric value. -/
abbrev Addr := ℕ

/-- JavaScript `Math.round` on an exact rational: round half toward +∞. -/
def jsRound (q : ℚ) : ℤ := ⌊q + 1/2⌋

/-- Bit length of a natural number, with explicit fuel so that the kernel can
evaluate it. -/
def bitLenAux : ℕ → ℕ → ℕ
  | 0, _ => 0
  | fuel + 1, n => if n = 0 then 0 else bitLenAux fuel (n / 2) + 1

/-- Bit length of a natural number (`0` has bit length `0`). -/
def bitLen (n : ℕ) : ℕ := bitLenAux n n

/-- JavaScript `Number(bigint)` for a nonnegative bigint: the integer value of
the nearest IEEE-754 double (53-bit significand, ties to even).  Exact below
`2^53`. -/
def jsNum (n : ℕ) : ℕ :=
  if n < 2 ^ 53 then n
  else
    let k := bitLen n - 53
    let q := n / 2 ^ k
    let r := n % 2 ^ k
    let half := 2 ^ (k - 1)
    if r < half then q * 2 ^ k
    else if half < r then (q + 1) * 2 ^ k
    else if q % 2 = 0 then q * 2 ^ k else (q + 1) * 2 ^ k

/-- The float a scanner quote stores: `Number(priceScaled) / 1e18`
(scanner.js lines 86 and 119).  The bigint-to-double conversion is `jsNum`;
the division by `1e18` is modelled exactly. -/
def jsPrice (priceScaled : ℕ) : ℚ := (jsNum priceScaled : ℚ) / 10 ^ 18

/-- Fixed-point scale `SCALE = 10n ** 18n` (scanner.js lines 79 and 115). -/
def SCALE : ℕ := 10 ^ 18

/-- `Q192 = 2n ** 192n` (scanner.js line 80). -/
def Q192 : ℕ := 2 ^ 192

/-- A venue quote as pushed by the scanner: v3 quotes carry
`{ pool, fee, price, liquidity, source }` (line 89), Sushi quotes carry
`{ pair, price, source }` (line 121, here with `fee = none`,
`liquidity = none`). -/
structure Quote where
  pool : Addr
  fee : Option ℕ
  price : ℚ
  liquidity : Option ℕ
  source : String
deriving DecidableEq

/-- An arbitrage opportunity `{ buy, sell, spread, profitBps }`
(scanner.js line 160; the `tokenA`/`tokenB` tags are elided). -/
structure Opp where
  buy : Quote
  sell : Quote
  spread : ℚ
  profitBps : ℤ
deriving DecidableEq

/-- State of a Uniswap-V3 pool as read by `slot0()`, `liquidity()`,
`token0()` (scanner.js lines 68-72). -/
structure V3Pool where
  poolAddr : Addr
  sqrtPriceX96 : ℕ
  liquidity : ℕ
  token0 : Addr
deriving DecidableEq

/-- State of a Sushiswap V2 pair as read by `getReserves()`, `token0()`
(scanner.js line 109). -/
structure V2Pair where
  pairAddr : Addr
  reserve0 : ℕ
  reserve1 : ℕ
  token0 : Addr
deriving DecidableEq

/-- Chain state the scanner's read-only queries observe.  `v3pool fee = none`
models a nonexistent pool (`getPool` returned the zero address) or a reverted
call — both are skipped by the `try`/`catch`; likewise `sushiPair = none`
models a missing factory, a zero pair address, or a reverted call. -/
structure ScanEnv where
  v3pool : ℕ → Option V3Pool
  sushiPair : Option V2Pair

/-- The fee tiers queried on Uniswap V3 (scanner.js line 58). -/
def feeTiers : List ℕ := [500, 3000, 10000]

/-- Integer fixed-point price of a V3 pool, scaled by `1e18`: lines 78-84 of
scanner.js.  `priceScaled = sqrtPriceX96^2 * SCALE / Q192`; if the pool's
`token0` is not `tokenA` the price is inverted as `SCALE * SCALE / priceScaled`.
A zero `priceScaled` in the inverted branch makes the JavaScript bigint
division throw; the surrounding `try`/`catch` then skips the pool, modelled by
`none`. -/
def v3PriceScaled (p : V3Pool) (tokenA : Addr) : Option ℕ :=
  let priceScaled := p.sqrtPriceX96 * p.sqrtPriceX96 * SCALE / Q192
  if p.token0 = tokenA then some priceScaled
  else if priceScaled = 0 then none
  else some (SCALE * SCALE / priceScaled)

/-- `scanUniswapV3Pools` (scanner.js lines 57-97): for each fee tier, skip
missing pools and pools with `liquidity === 0n`, otherwise produce a quote
whose `price` is the float conversion of the scaled integer price.  The
`Promise.all` fan-out is modelled by evaluating each tier's query from the
environment; note the scaled integer `adjScaled` is not stored on the quote. -/
def scanUniswapV3Pools (env : ScanEnv) (tokenA : Addr) : List Quote :=
  feeTiers.filterMap fun fee =>
    match env.v3pool fee with
    | none => none
    | some p =>
      if p.liquidity = 0 then none
      else
        match v3PriceScaled p tokenA with
        | none => none
        | some adjScaled =>
            some { pool := p.poolAddr, fee := some fee, price := jsPrice adjScaled,
                   liquidity := some p.liquidity, source := "uniswapV3" }

/-- `scanSushiswapPair` (scanner.js lines 102-125): `null` when the factory or
pair is missing or either reserve is zero; otherwise a quote priced
`(r1 * SCALE) / r0` (or the flipped orientation) converted to a float. -/
def scanSushiswapPair (env : ScanEnv) (tokenA : Addr) : Option Quote :=
  match env.sushiPair with
  | none => none
  | some p =>
    if p.reserve0 = 0 ∨ p.reserve1 = 0 then none
    else
      let priceScaled :=
        if p.token0 = tokenA then p.reserve1 * SCALE / p.reserve0
        else p.reserve0 * SCALE / p.reserve1
      some { pool := p.pairAddr, fee := none, price := jsPrice priceScaled,
             liquidity := none, source := "sushiswap" }

/-- The candidate pool list assembled by `findArbitrageOpportunities`
(scanner.js lines 142-143): all V3 quotes plus the Sushi quote when present. -/
def scanQuotes (env : ScanEnv) (tokenA : Addr) : List Quote :=
  scanUniswapV3Pools env tokenA ++ (scanSushiswapPair env tokenA).toList

/-- All ordered index pairs `i < j` of the pool list, in the order the nested
loops of scanner.js lines 147-148 visit them. -/
def pairCandidates : List Quote → List (Quote × Quote)
  | [] => []
  | x :: xs => xs.map (fun y => (x, y)) ++ pairCandidates xs

/-- `spread = Math.abs(a.price - b.price) / Math.min(a.price, b.price)`
(scanner.js line 153), exact in ℚ. -/
def pairSpread (a b : Quote) : ℚ := |a.price - b.price| / min a.price b.price

/-- `profitBps = Math.round(spread * 10000)` (scanner.js line 154). -/
def pairProfitBps (a b : Quote) : ℤ := jsRound (pairSpread a b * 10000)

/-- The opportunity object pushed for a retained pair (scanner.js lines
157-160): the lower-priced quote becomes `buy` (ties go to `b`, because
`a.price < b.price` is then false). -/
def mkOpp (a b : Quote) : Opp :=
  { buy := if a.price < b.price then a else b
    sell := if a.price < b.price then b else a
    spread := pairSpread a b
    profitBps := pairProfitBps a b }

/-- Body of the inner matching loop (scanner.js lines 149-161): skip a pair
when either price is zero, skip when `profitBps < minProfitBps` (equality is
retained), otherwise push the opportunity. -/
def evalPair (minProfitBps : ℚ) (ab : Quote × Quote) : Option Opp :=
  if ab.1.price = 0 ∨ ab.2.price = 0 then none
  else if (pairProfitBps ab.1 ab.2 : ℚ) < minProfitBps then none
  else some (mkOpp ab.1 ab.2)

/-- Stable insertion keeping the accumulated list sorted by `profitBps`
descending: an element is placed after every already-present element with
`profitBps` greater than or equal to its own. -/
def insertDesc (o : Opp) : List Opp → List Opp
  | [] => [o]
  | x :: xs => if x.profitBps ≥ o.profitBps then x :: insertDesc o xs else o :: x :: xs

/-- `opportunities.sort((x, y) => y.profitBps - x.profitBps)` (scanner.js line
164): a stable sort by `profitBps` descending, modelled by stable insertion. -/
def sortByProfitDesc (l : List Opp) : List Opp :=
  l.foldl (fun acc o => insertDesc o acc) []

/-- The matching pass of `findArbitrageOpportunities` (scanner.js lines
145-164), taking the already-fetched pool list: evaluate every `i < j` pair
and sort the retained opportunities by `profitBps` descending. -/
def findArbitrageOpportunities (allPools : List Quote) (minProfitBps : ℚ) : List Opp :=
  sortByProfitDesc ((pairCandidates allPools).filterMap (evalPair minProfitBps))

/-- The whole of `findArbitrageOpportunities` (scanner.js lines 136-165):
scan both venues, then match. -/
def findArbitrageOpportunitiesOnScan (env : ScanEnv) (tokenA : Addr) (minProfitBps : ℚ) :
    List Opp :=
  findArbitrageOpportunities (scanQuotes env tokenA) minProfitBps

/-- `TOKEN_DECIMALS` (config.js lines 6-27): token address → decimal count.
Keys are the numeric values of the lowercase hex addresses listed there. -/
def TOKEN_DECIMALS : List (Addr × ℕ) :=
  [ (0xa0b86991c6218b36c1d19d4a2e9eb0ce3606eb48, 6),
    (0x2791bca1f2de4661ed88a30c99a7a9449aa84174, 6),
    (0xff970a61a04b1ca14834a43f5de4533ebddb5cc8, 6),
    (0x8ac76a51cc950d9822d68b83fe1ad97b32cd580d, 18),
    (0xdac17f958d2ee523a2206206994597c13d831ec7, 6),
    (0xc2132d05d31c914a87c6611c10748aeb04b58e8f, 6),
    (0xfd086bc7cd5c481dcc9c85ebe478a1c0b69fcbb9, 6),
    (0x55d398326f99059ff775485246999027b3197955, 18),
    (0x6b175474e89094c44da98b954eedeac495271d0f, 18),
    (0x8f3cf7ad23cd3cadbd9735aff958023239c6a063, 18),
    (0xda10009cbd5d07dd0cecc66161fc93d7c9000da1, 18),
    (0x1af3f329e8be154074d8769d1ffa4ee058b1dbc3, 18),
    (0xc02aaa39b223fe8d0a0e5c4f27ead9083c756cc2, 18),
    (0x0d500b1d8e8ef31e21c99d1db9a6444d3adf1270, 18),
    (0x82af49447d8a07e3bd95bd0d56f35241523fbab1, 18),
    (0xbb4cdb9cbd36b01bd1cbaebf2de08d9173bc095c, 18) ]

/-- `tokenDecimals` (config.js lines 33-35):
`TOKEN_DECIMALS[address.toLowerCase()] ?? 18`.  Lowercasing is the identity on
the numeric address value. -/
def tokenDecimals (address : Addr) : ℕ :=
  (TOKEN_DECIMALS.lookup address).getD 18

/-- Loan sizing of the scan loop (index.js lines 128-129):
`ethers.parseUnits(String(LOAN_AMOUNT_USD), decimals)` for a whole-dollar
notional is the notional scaled by `10 ^ decimals`. -/
def loanAmount (notionalUsd : ℕ) (tokenBorrow : Addr) : ℕ :=
  notionalUsd * 10 ^ tokenDecimals tokenBorrow

/-- The `ArbParams` struct (FlashLoanArbitrageV3.sol lines 127-142), which is
also the field layout `encodeArbParams` encodes (executor.js lines 27-38). -/
structure ArbParams where
  dex1 : ℕ
  dex2 : ℕ
  tokenBorrow : Addr
  tokenIntermediate : Addr
  fee1 : ℕ
  fee2 : ℕ
  curvePool1 : Addr
  curvePool2 : Addr
  curveI1 : ℤ
  curveJ1 : ℤ
  curveI2 : ℤ
  curveJ2 : ℤ
  amountOutMin1 : ℕ
  amountOutMin2 : ℕ
deriving DecidableEq

/-- `DEX_UNISWAP_V3 = 1` (FlashLoanArbitrageV3.sol line 102). -/
def DEX_UNISWAP_V3 : ℕ := 1

/-- `DEX_SUSHISWAP = 2` (FlashLoanArbitrageV3.sol line 103). -/
def DEX_SUSHISWAP : ℕ := 2

/-- `DEX_CURVE = 3` (FlashLoanArbitrageV3.sol line 104). -/
def DEX_CURVE : ℕ := 3

/-- The `ArbParams` object the live scan loop builds from the best opportunity
(index.js lines 107-125): venue codes 1/2 from the quote sources, fee tiers
defaulted to 3000 when the quote has no fee field, zeroed Curve coordinates
and zeroed minimum outputs. -/
def buildArbParams (best : Opp) (tokenA tokenB : Addr) : ArbParams :=
  { dex1 := if best.buy.source = "uniswapV3" then 1 else 2
    dex2 := if best.sell.source = "uniswapV3" then 1 else 2
    tokenBorrow := tokenA
    tokenIntermediate := tokenB
    fee1 := best.buy.fee.getD 3000
    fee2 := best.sell.fee.getD 3000
    curvePool1 := 0
    curvePool2 := 0
    curveI1 := 0
    curveJ1 := 0
    curveI2 := 0
    curveJ2 := 0
    amountOutMin1 := 0
    amountOutMin2 := 0 }

/-- 256-bit two's-complement word encoding an `int128` value. -/
def wordOfInt128 (i : ℤ) : ℕ := (i % (2 : ℤ) ^ 256).toNat

/-- `encodeArbParams` (executor.js lines 27-38): ABI encoding of the
all-static `ArbParams` tuple is fourteen 32-byte head words in declaration
order.  Each word is the field value; `int128` fields are sign-extended
two's-complement. -/
def encodeArbParams (p : ArbParams) : List ℕ :=
  [ p.dex1, p.dex2, p.tokenBorrow, p.tokenIntermediate, p.fee1, p.fee2,
    p.curvePool1, p.curvePool2,
    wordOfInt128 p.curveI1, wordOfInt128 p.curveJ1,
    wordOfInt128 p.curveI2, wordOfInt128 p.curveJ2,
    p.amountOutMin1, p.amountOutMin2 ]

/-- Solidity `abi.decode` of one unsigned word: the padding above the value
width must be clean, otherwise the decode reverts. -/
def decodeUint (bits : ℕ) (w : ℕ) : Option ℕ :=
  if w < 2 ^ bits then some w else none

/-- Solidity `abi.decode` of an `int128` word: sign-extended two's-complement;
any other bit pattern reverts. -/
def decodeInt128 (w : ℕ) : Option ℤ :=
  if w < 2 ^ 127 then some (w : ℤ)
  else if 2 ^ 256 - 2 ^ 127 ≤ w ∧ w < 2 ^ 256 then some ((w : ℤ) - 2 ^ 256)
  else none

/-- `abi.decode(params, (ArbParams))` (FlashLoanArbitrageV3.sol line 257):
fourteen head words decoded by field type; anything else reverts (`none`). -/
def decodeArbParams : List ℕ → Option ArbParams
  | [w1, w2, w3, w4, w5, w6, w7, w8, w9, w10, w11, w12, w13, w14] => do
      let dex1 ← decodeUint 8 w1
      let dex2 ← decodeUint 8 w2
      let tokenBorrow ← decodeUint 160 w3
      let tokenIntermediate ← decodeUint 160 w4
      let fee1 ← decodeUint 24 w5
      let fee2 ← decodeUint 24 w6
      let curvePool1 ← decodeUint 160 w7
      let curvePool2 ← decodeUint 160 w8
      let curveI1 ← decodeInt128 w9
      let curveJ1 ← decodeInt128 w10
      let curveI2 ← decodeInt128 w11
      let curveJ2 ← decodeInt128 w12
      let amountOutMin1 ← decodeUint 256 w13
      let amountOutMin2 ← decodeUint 256 w14
      pure ⟨dex1, dex2, tokenBorrow, tokenIntermediate, fee1, fee2, curvePool1,
            curvePool2, curveI1, curveJ1, curveI2, curveJ2, amountOutMin1, amountOutMin2⟩
  | _ => none

/-- Range constraints under which the ethers ABI coder accepts an `ArbParams`
object (out-of-range values are rejected at encode time). -/
def ValidArbParams (p : ArbParams) : Prop :=
  p.dex1 < 2 ^ 8 ∧ p.dex2 < 2 ^ 8 ∧
  p.tokenBorrow < 2 ^ 160 ∧ p.tokenIntermediate < 2 ^ 160 ∧
  p.fee1 < 2 ^ 24 ∧ p.fee2 < 2 ^ 24 ∧
  p.curvePool1 < 2 ^ 160 ∧ p.curvePool2 < 2 ^ 160 ∧
  -(2 ^ 127) ≤ p.curveI1 ∧ p.curveI1 < 2 ^ 127 ∧
  -(2 ^ 127) ≤ p.curveJ1 ∧ p.curveJ1 < 2 ^ 127 ∧
  -(2 ^ 127) ≤ p.curveI2 ∧ p.curveI2 < 2 ^ 127 ∧
  -(2 ^ 127) ≤ p.curveJ2 ∧ p.curveJ2 < 2 ^ 127 ∧
  p.amountOutMin1 < 2 ^ 256 ∧ p.amountOutMin2 < 2 ^ 256

instance (p : ArbParams) : Decidable (ValidArbParams p) := by
  unfold ValidArbParams
  exact inferInstance

/-- One `_swap` invocation's arguments (FlashLoanArbitrageV3.sol lines
304-313). -/
structure SwapCall where
  dex : ℕ
  tokenIn : Addr
  tokenOut : Addr
  amountIn : ℕ
  amountOutMin : ℕ
  feeTier : ℕ
  curvePool : Addr
  curveI : ℤ
  curveJ : ℤ
deriving DecidableEq

/-- Revert reasons of the contract (custom errors, lines 119-123), plus the
implicit reverts: a malformed `abi.decode`, a calldata array read out of
bounds, and the OpenZeppelin `onlyOwner` / `nonReentrant` modifier reverts. -/
inductive EngineError where
  | Unauthorized
  | InvalidAmount
  | InsufficientBalance (required available : ℕ)
  | SwapFailed (dex : ℕ)
  | ZeroAddress
  | DecodeRevert
  | IndexOutOfBounds
  | ReentrancyGuard
  | NotOwner
deriving DecidableEq

/-- External world as seen by the contract: the Aave pool address, the
contract's own address, its owner, the outcome of each DEX router call
(`none` = the inner call reverted, caught and turned into `SwapFailed`), and
the `balanceOf(tokenBorrow)` value read after both legs (line 290). -/
structure EngineEnv where
  pool : Addr
  self : Addr
  owner : Addr
  swapResult : SwapCall → Option ℕ
  balanceAfter : ℕ

/-- `_swap` (FlashLoanArbitrageV3.sol lines 304-361): dispatch on the venue
code; a Curve leg with a zero pool address reverts with `ZeroAddress` before
calling out; an unknown code reverts with `SwapFailed(dex)` without calling
out; a reverting router call becomes `SwapFailed(dex)`. -/
def swapDispatch (env : EngineEnv) (c : SwapCall) : Except EngineError ℕ :=
  if c.dex = DEX_UNISWAP_V3 then
    match env.swapResult c with
    | some out => .ok out
    | none => .error (.SwapFailed c.dex)
  else if c.dex = DEX_SUSHISWAP then
    match env.swapResult c with
    | some out => .ok out
    | none => .error (.SwapFailed c.dex)
  else if c.dex = DEX_CURVE then
    if c.curvePool = 0 then .error .ZeroAddress
    else
      match env.swapResult c with
      | some out => .ok out
      | none => .error (.SwapFailed c.dex)
  else .error (.SwapFailed c.dex)

/-- Effects of a successful `executeOperation`: the repayment approval
`safeApprove(POOL, amountOwed)` (line 294), the retained profit (line 296) and
the `ArbExecuted(tokenBorrow, amountBorrowed, profit)` event (line 297). -/
structure ExecResult where
  approved : Addr × ℕ
  profit : ℕ
  arbExecuted : Addr × ℕ × ℕ
deriving DecidableEq

/-- Leg-1 swap arguments (FlashLoanArbitrageV3.sol lines 264-274). -/
def leg1Call (arb : ArbParams) (tokenBorrow : Addr) (amountBorrowed : ℕ) : SwapCall :=
  ⟨arb.dex1, tokenBorrow, arb.tokenIntermediate, amountBorrowed,
   arb.amountOutMin1, arb.fee1, arb.curvePool1, arb.curveI1, arb.curveJ1⟩

/-- Leg-2 swap arguments (FlashLoanArbitrageV3.sol lines 277-287). -/
def leg2Call (arb : ArbParams) (tokenBorrow : Addr) (intermediateReceived : ℕ) : SwapCall :=
  ⟨arb.dex2, arb.tokenIntermediate, tokenBorrow, intermediateReceived,
   arb.amountOutMin2, arb.fee2, arb.curvePool2, arb.curveI2, arb.curveJ2⟩

/-- `executeOperation` (FlashLoanArbitrageV3.sol lines 247-300).  `sender` is
`msg.sender`.  The first component of the result lists the swap legs that were
dispatched before the call returned or reverted, so an empty list means the
call was decided before any swap occurred.  On success the profit is
`balance - (amountBorrowed + premium)` and the repayment approval is recorded;
when the final balance is short the call reverts with
`InsufficientBalance(amountOwed, balance)`. -/
def executeOperation (env : EngineEnv) (assets : List Addr) (amounts premiums : List ℕ)
    (initiator : Addr) (params : List ℕ) (sender : Addr) :
    List SwapCall × Except EngineError ExecResult :=
  if sender ≠ env.pool then ([], .error .Unauthorized)
  else if initiator ≠ env.self then ([], .error .Unauthorized)
  else
    match decodeArbParams params with
    | none => ([], .error .DecodeRevert)
    | some arb =>
      match assets, amounts, premiums with
      | tokenBorrow :: _, amountBorrowed :: _, premium :: _ =>
        let amountOwed := amountBorrowed + premium
        let c1 := leg1Call arb tokenBorrow amountBorrowed
        match swapDispatch env c1 with
        | .error e => ([c1], .error e)
        | .ok intermediateReceived =>
          let c2 := leg2Call arb tokenBorrow intermediateReceived
          match swapDispatch env c2 with
          | .error e => ([c1, c2], .error e)
          | .ok _ =>
            if env.balanceAfter < amountOwed then
              ([c1, c2], .error (.InsufficientBalance amountOwed env.balanceAfter))
            else
              ([c1, c2], .ok ⟨(env.pool, amountOwed), env.balanceAfter - amountOwed,
                              (tokenBorrow, amountBorrowed, env.balanceAfter - amountOwed)⟩)
      | _, _, _ => ([], .error .IndexOutOfBounds)

/-- The flash-loan request `executeArbitrage` forwards to `POOL.flashLoan`
(lines 230-238), together with the `FlashLoanInitiated` event (line 228). -/
structure FlashLoanRequest where
  receiver : Addr
  assets : List Addr
  amounts : List ℕ
  modes : List ℕ
  onBehalfOf : Addr
  params : List ℕ
  initiated : Addr × ℕ
deriving DecidableEq

/-- `executeArbitrage` (FlashLoanArbitrageV3.sol lines 213-239): `onlyOwner`
and `nonReentrant` (modelled by `locked`), reject a zero amount, then emit
`FlashLoanInitiated` and call `POOL.flashLoan` with singleton arrays and
mode 0. -/
def executeArbitrage (env : EngineEnv) (caller : Addr) (locked : Bool)
    (asset : Addr) (amount : ℕ) (arbParams : List ℕ) :
    Except EngineError FlashLoanRequest :=
  if caller ≠ env.owner then .error .NotOwner
  else if locked then .error .ReentrancyGuard
  else if amount = 0 then .error .InvalidAmount
  else .ok ⟨env.self, [asset], [amount], [0], env.self, arbParams, (asset, amount)⟩

/-! ### Concrete instances used by scenario theorems and witnesses -/

/-- Scenario quote priced 100.00 (spec §8 Scenario A/B), from the
constant-product venue. -/
def scenarioQuoteA : Quote := ⟨21, none, 100, none, "sushiswap"⟩

/-- Scenario quote priced 100.20 (spec §8 Scenario A/B), from the
concentrated-liquidity venue. -/
def scenarioQuoteB : Quote := ⟨22, some 3000, 501/5, some 9, "uniswapV3"⟩

/-- Quote with the same venue and fee shape as `scenarioQuoteA` but a
different price. -/
def altQuoteA : Quote := ⟨21, none, 7, none, "sushiswap"⟩

/-- Quote with the same venue and fee shape as `scenarioQuoteB` but a
different price. -/
def altQuoteB : Quote := ⟨22, some 3000, 9, some 9, "uniswapV3"⟩

/-- Two quotes with exactly equal prices, for the threshold-zero edge case. -/
def quoteEqualA : Quote := ⟨31, some 500, 100, some 3, "uniswapV3"⟩

/-- Second quote with the same price as `quoteEqualA`. -/
def quoteEqualB : Quote := ⟨32, some 3000, 100, some 4, "uniswapV3"⟩

/-- V3 pool whose integer scaled price is exactly `9007199254780000`
(`= 20000 * 450359962739`, about `2^53`): `sqrtPriceX96` chosen so that
`sqrtPriceX96^2 * 10^18 / 2^192` hits that value. -/
def cxPool1 : V3Pool := ⟨41, 7519249036516423009645666359, 1, 1⟩

/-- V3 pool whose integer scaled price is exactly `9024763293326821`
(`= 20039 * 450359962739`), exactly 19.5 bps above `cxPool1`'s price. -/
def cxPool2 : V3Pool := ⟨42, 7526576733814370963722694874, 1, 1⟩

/-- Scan environment exposing `cxPool1` at the 500 tier and `cxPool2` at the
3000 tier, with no Sushi pair. -/
def cxScanEnv : ScanEnv :=
  ⟨fun fee => if fee = 500 then some cxPool1 else if fee = 3000 then some cxPool2 else none,
   none⟩

/-- Scan environment with only a Sushi pair of reserves 2 and 4. -/
def wSushiEnv : ScanEnv := ⟨fun _ => none, some ⟨7, 2, 4, 1⟩⟩

/-- Scan environment with only a Sushi pair whose reserve0 is zero. -/
def wSushiZeroEnv : ScanEnv := ⟨fun _ => none, some ⟨7, 0, 4, 1⟩⟩

/-- A concrete valid `ArbParams` value with zeroed Curve fields. -/
def wParams : ArbParams := ⟨1, 2, 3, 4, 500, 3000, 0, 0, 0, 0, 0, 0, 0, 0⟩

/-- Engine environment whose routers return `amountIn + 1` and whose final
balance 250 covers the repayment. -/
def wEnv : EngineEnv := ⟨10, 11, 12, fun c => some (c.amountIn + 1), 250⟩

/-- Engine environment identical to `wEnv` but with final balance 50, short of
the repayment. -/
def wEnvShort : EngineEnv := ⟨10, 11, 12, fun c => some (c.amountIn + 1), 50⟩

/-- Swap trace of a successful run of `executeOperation` under `wEnv`. -/
def wTrace : List SwapCall := [leg1Call wParams 3 100, leg2Call wParams 3 101]

/-- Result of a successful run of `executeOperation` under `wEnv` borrowing
100 with premium 1. -/
def wOut : ExecResult := ⟨(10, 101), 149, (3, 100, 149)⟩

/-! ### Helper lemmas -/

theorem jsNum_cx1 : jsNum 9007199254780000 = 9007199254780000 := by decide

theorem jsNum_cx2 : jsNum 9024763293326821 = 9024763293326820 := by decide

theorem mem_scanUniswapV3Pools (env : ScanEnv) (tokenA : Addr) (q : Quote)
    (h : q ∈ scanUniswapV3Pools env tokenA) :
    ∃ fee p adj, fee ∈ feeTiers ∧ env.v3pool fee = some p ∧ p.liquidity ≠ 0 ∧
      v3PriceScaled p tokenA = some adj ∧
      q = ⟨p.poolAddr, some fee, jsPrice adj, some p.liquidity, "uniswapV3"⟩ := by
  unfold scanUniswapV3Pools at h
  rw [List.mem_filterMap] at h
  obtain ⟨fee, hfee, hq⟩ := h
  cases hv : env.v3pool fee with
  | none => rw [hv] at hq; simp at hq
  | some p =>
    rw [hv] at hq
    dsimp only at hq
    by_cases hliq : p.liquidity = 0
    · rw [if_pos hliq] at hq; simp at hq
    rw [if_neg hliq] at hq
    cases hadj : v3PriceScaled p tokenA with
    | none => rw [hadj] at hq; simp at hq
    | some adj =>
      rw [hadj] at hq
      rw [Option.some.injEq] at hq
      exact ⟨fee, p, adj, hfee, hv, hliq, hadj, hq.symm⟩

theorem mem_insertDesc (x o : Opp) :
    ∀ (l : List Opp), x ∈ insertDesc o l ↔ x = o ∨ x ∈ l
  | [] => by simp [insertDesc]
  | y :: ys => by
    by_cases h : y.profitBps ≥ o.profitBps
    · simp only [insertDesc, if_pos h, List.mem_cons, mem_insertDesc x o ys]
      tauto
    · simp only [insertDesc, if_neg h, List.mem_cons]

theorem mem_foldl_insertDesc (x : Opp) :
    ∀ (l acc : List Opp),
      x ∈ l.foldl (fun acc o => insertDesc o acc) acc ↔ x ∈ acc ∨ x ∈ l
  | [], acc => by simp
  | o :: os, acc => by
    simp only [List.foldl_cons, List.mem_cons]
    rw [mem_foldl_insertDesc x os (insertDesc o acc), mem_insertDesc]
    tauto

theorem mem_sortByProfitDesc (x : Opp) (l : List Opp) :
    x ∈ sortByProfitDesc l ↔ x ∈ l := by
  unfold sortByProfitDesc
  rw [mem_foldl_insertDesc]
  simp

theorem mem_pairCandidates (a b : Quote) :
    ∀ (l : List Quote), (a, b) ∈ pairCandidates l → a ∈ l ∧ b ∈ l
  | [], h => by simp [pairCandidates] at h
  | x :: xs, h => by
    simp only [pairCandidates, List.mem_append, List.mem_map, Prod.mk.injEq] at h
    rcases h with ⟨y, hy, hax, hby⟩ | h
    · subst hax; subst hby
      exact ⟨List.mem_cons_self x xs, List.mem_cons_of_mem x hy⟩
    · have ih := mem_pairCandidates a b xs h
      exact ⟨List.mem_cons_of_mem x ih.1, List.mem_cons_of_mem x ih.2⟩

theorem evalPair_eq_some_of (minBps : ℚ) (a b : Quote) (ha : a.price ≠ 0)
    (hb : b.price ≠ 0) (hth : minBps ≤ (pairProfitBps a b : ℚ)) :
    evalPair minBps (a, b) = some (mkOpp a b) := by
  unfold evalPair
  rw [if_neg (by simp [ha, hb]), if_neg (not_lt.mpr hth)]

theorem of_evalPair_eq_some (minBps : ℚ) (ab : Quote × Quote) (o : Opp)
    (h : evalPair minBps ab = some o) :
    ab.1.price ≠ 0 ∧ ab.2.price ≠ 0 ∧ minBps ≤ (pairProfitBps ab.1 ab.2 : ℚ) ∧
      o = mkOpp ab.1 ab.2 := by
  unfold evalPair at h
  by_cases h0 : ab.1.price = 0 ∨ ab.2.price = 0
  · rw [if_pos h0] at h; simp at h
  rw [if_neg h0] at h
  by_cases h1 : (pairProfitBps ab.1 ab.2 : ℚ) < minBps
  · rw [if_pos h1] at h; simp at h
  rw [if_neg h1] at h
  push_neg at h0
  exact ⟨h0.1, h0.2, not_lt.mp h1, (Option.some.injEq _ _ ▸ h).symm⟩

theorem mem_findArbitrageOpportunities (l : List Quote) (minBps : ℚ) (o : Opp) :
    o ∈ findArbitrageOpportunities l minBps ↔
      ∃ ab ∈ pairCandidates l, evalPair minBps ab = some o := by
  unfold findArbitrageOpportunities
  rw [mem_sortByProfitDesc, List.mem_filterMap]

theorem opp_legs_mem (l : List Quote) (minBps : ℚ) (o : Opp)
    (h : o ∈ findArbitrageOpportunities l minBps) : o.buy ∈ l ∧ o.sell ∈ l := by
  rw [mem_findArbitrageOpportunities] at h
  obtain ⟨ab, hab, hev⟩ := h
  obtain ⟨-, -, -, ho⟩ := of_evalPair_eq_some _ _ _ hev
  have hm := mem_pairCandidates ab.1 ab.2 l hab
  subst ho
  unfold mkOpp
  constructor <;> dsimp only <;> split <;> tauto

theorem half_le_of_one_le_jsRound (q : ℚ) (h : 1 ≤ jsRound q) : 1/2 ≤ q := by
  unfold jsRound at h
  have h2 : ((1 : ℤ) : ℚ) ≤ q + 1/2 := Int.le_floor.mp h
  push_cast at h2
  linarith

theorem price_ne_of_one_le_pairProfitBps (a b : Quote)
    (h : 1 ≤ pairProfitBps a b) : a.price ≠ b.price := by
  intro heq
  unfold pairProfitBps at h
  have hs := half_le_of_one_le_jsRound _ h
  unfold pairSpread at hs
  rw [heq] at hs
  simp at hs
  linarith

theorem mkOpp_buy_lt_sell (a b : Quote) (h : a.price ≠ b.price) :
    (mkOpp a b).buy.price < (mkOpp a b).sell.price := by
  unfold mkOpp
  by_cases hlt : a.price < b.price
  · simp only [if_pos hlt]; exact hlt
  · simp only [if_neg hlt]
    exact lt_of_le_of_ne (not_lt.mp hlt) (Ne.symm h)

theorem lookup_of_mem_of_nodupKeys :
    ∀ (l : List (Addr × ℕ)) (a : Addr) (d : ℕ),
      (l.map Prod.fst).Nodup → (a, d) ∈ l → l.lookup a = some d
  | [], _, _, _, h => by simp at h
  | (k, v) :: es, a, d, hnd, hmem => by
    simp only [List.map_cons, List.nodup_cons] at hnd
    rcases List.mem_cons.mp hmem with heq | htail
    · obtain ⟨rfl, rfl⟩ := Prod.mk.injEq .. ▸ heq
      simp [List.lookup]
    · have hne : a ≠ k := by
        intro rfl
        exact hnd.1 (List.mem_map.mpr ⟨(a, d), htail, rfl⟩)
      simpa [List.lookup, beq_false_of_ne hne] using
        lookup_of_mem_of_nodupKeys es a d hnd.2 htail

set_option maxRecDepth 16000 in
theorem decodeInt128_wordOfInt128 (i : ℤ) (h1 : -(2 ^ 127) ≤ i)
    (h2 : i < 2 ^ 127) : decodeInt128 (wordOfInt128 i) = some i := by
  have e127 : (2 : ℤ) ^ 127 = 170141183460469231731687303715884105728 := by norm_num
  have e256 : (2 : ℤ) ^ 256 =
      115792089237316195423570985008687907853269984665640564039457584007913129639936 := by
    norm_num
  have n127 : (2 : ℕ) ^ 127 = 170141183460469231731687303715884105728 := by norm_num
  have n256 : (2 : ℕ) ^ 256 =
      115792089237316195423570985008687907853269984665640564039457584007913129639936 := by
    norm_num
  rw [e127] at h1 h2
  unfold wordOfInt128 decodeInt128
  rw [e256, n127, n256]
  rcases le_or_lt 0 i with hpos | hneg
  · have hmod : i %
        (115792089237316195423570985008687907853269984665640564039457584007913129639936 : ℤ)
          = i := by omega
    rw [hmod, if_pos (by omega)]
    congr 1
    omega
  · have hmod : i %
        (115792089237316195423570985008687907853269984665640564039457584007913129639936 : ℤ)
          = i + 115792089237316195423570985008687907853269984665640564039457584007913129639936 := by
      omega
    rw [hmod, if_neg (by omega), if_pos (by omega)]
    congr 1
    omega

/-! ### Claim theorems -/

/-- C1: `executeOperation` reaches its success state only when the final
balance of the borrowed token is at least principal + premium; on success the
repayment approval is for exactly `principal + premium` and the retained,
emitted profit is `balance - (principal + premium)`; when both swaps complete
but the balance is short, the call reverts with the explicit
`InsufficientBalance` error (an `Except.error`, so no effects persist). -/
theorem executeOperation_settles_only_fully_repaid :
    (∀ (env : EngineEnv) (tok : Addr) (a0 p0 : ℕ) (atl : List Addr)
        (mtl ptl : List ℕ) (initiator : Addr) (params : List ℕ) (sender : Addr)
        (trace : List SwapCall) (out : ExecResult),
      executeOperation env (tok :: atl) (a0 :: mtl) (p0 :: ptl) initiator params sender
          = (trace, .ok out) →
      a0 + p0 ≤ env.balanceAfter ∧
      out.profit = env.balanceAfter - (a0 + p0) ∧
      out.approved = (env.pool, a0 + p0) ∧
      out.arbExecuted = (tok, a0, env.balanceAfter - (a0 + p0))) ∧
    (∀ (env : EngineEnv) (tok : Addr) (a0 p0 : ℕ) (atl : List Addr)
        (mtl ptl : List ℕ) (params : List ℕ) (arb : ArbParams) (i2 f2 : ℕ),
      decodeArbParams params = some arb →
      swapDispatch env (leg1Call arb tok a0) = .ok i2 →
      swapDispatch env (leg2Call arb tok i2) = .ok f2 →
      env.balanceAfter < a0 + p0 →
      executeOperation env (tok :: atl) (a0 :: mtl) (p0 :: ptl) env.self params env.pool
          = ([leg1Call arb tok a0, leg2Call arb tok i2],
             .error (.InsufficientBalance (a0 + p0) env.balanceAfter))) := by
  constructor
  · intro env tok a0 p0 atl mtl ptl initiator params sender trace out h
    simp only [executeOperation] at h
    split at h
    · simp at h
    split at h
    · simp at h
    split at h
    · simp at h
    split at h
    · simp at h
    split at h
    · simp at h
    split at h
    · simp at h
    · rename_i hbal
      simp only [Prod.mk.injEq, Except.ok.injEq] at h
      obtain ⟨-, hout⟩ := h
      subst hout
      exact ⟨not_lt.mp hbal, rfl, rfl, rfl⟩
  · intro env tok a0 p0 atl mtl ptl params arb i2 f2 hdec hs1 hs2 hlt
    simp [executeOperation, hdec, hs1, hs2, hlt]

/-- C1 witness: under `wEnv` (final balance 250) borrowing 100 with premium 1
the operation settles with profit 149; under `wEnvShort` (final balance 50) it
reverts with `InsufficientBalance(101, 50)`. -/
theorem executeOperation_settles_only_fully_repaid_witness :
    (100 + 1 ≤ wEnv.balanceAfter ∧
      wOut.profit = wEnv.balanceAfter - (100 + 1) ∧
      wOut.approved = (wEnv.pool, 100 + 1) ∧
      wOut.arbExecuted = (3, 100, wEnv.balanceAfter - (100 + 1))) ∧
    executeOperation wEnvShort [3] [100] [1] wEnvShort.self (encodeArbParams wParams)
        wEnvShort.pool
      = ([leg1Call wParams 3 100, leg2Call wParams 3 101],
         .error (.InsufficientBalance (100 + 1) wEnvShort.balanceAfter)) :=
  ⟨executeOperation_settles_only_fully_repaid.1 wEnv 3 100 1 [] [] [] wEnv.self
      (encodeArbParams wParams) wEnv.pool wTrace wOut rfl,
   executeOperation_settles_only_fully_repaid.2 wEnvShort 3 100 1 [] [] []
      (encodeArbParams wParams) wParams 101 102 rfl rfl rfl (by decide)⟩

/-- C2: decoding the Execution Planner's encoding of any in-range `ArbParams`
value reproduces every field exactly, zero-valued optional fields included. -/
theorem encodeArbParams_decode_roundTrip (p : ArbParams) (hv : ValidArbParams p) :
    decodeArbParams (encodeArbParams p) = some p := by
  obtain ⟨h1, h2, h3, h4, h5, h6, h7, h8, h9, h10, h11, h12, h13, h14, h15, h16, h17, h18⟩ := hv
  simp only [encodeArbParams, decodeArbParams]
  rw [decodeInt128_wordOfInt128 _ h9 h10, decodeInt128_wordOfInt128 _ h11 h12,
      decodeInt128_wordOfInt128 _ h13 h14, decodeInt128_wordOfInt128 _ h15 h16]
  norm_num at h1 h2 h3 h4 h5 h6 h7 h8 h17 h18
  simp [decodeUint, h1, h2, h3, h4, h5, h6, h7, h8, h17, h18, Option.bind]

/-- C2 witness: the round trip at a concrete plan whose Curve pool addresses
and coin indices are zero. -/
theorem encodeArbParams_decode_roundTrip_witness :
    decodeArbParams (encodeArbParams wParams) = some wParams :=
  encodeArbParams_decode_roundTrip wParams (by decide)

/-- C8: `executeArbitrage` can only return successfully when the caller is the
owner, and `executeOperation` rejects with `Unauthorized` — before any swap is
dispatched (empty swap trace) — whenever `msg.sender` is not the lending pool
or the initiator is not the contract itself. -/
theorem settlement_authorization_checks :
    (∀ (env : EngineEnv) (caller : Addr) (locked : Bool) (asset : Addr)
        (amount : ℕ) (params : List ℕ) (r : FlashLoanRequest),
      executeArbitrage env caller locked asset amount params = .ok r →
      caller = env.owner) ∧
    (∀ (env : EngineEnv) (assets : List Addr) (amounts premiums : List ℕ)
        (initiator : Addr) (params : List ℕ) (sender : Addr),
      sender ≠ env.pool →
      executeOperation env assets amounts premiums initiator params sender
          = ([], .error .Unauthorized)) ∧
    (∀ (env : EngineEnv) (assets : List Addr) (amounts premiums : List ℕ)
        (initiator : Addr) (params : List ℕ),
      initiator ≠ env.self →
      executeOperation env assets amounts premiums initiator params env.pool
          = ([], .error .Unauthorized)) := by
  refine ⟨?_, ?_, ?_⟩
  · intro env caller locked asset amount params r h
    unfold executeArbitrage at h
    by_cases hc : caller ≠ env.owner
    · rw [if_pos hc] at h; simp at h
    · exact not_not.mp hc
  · intro env assets amounts premiums initiator params sender hs
    unfold executeOperation
    rw [if_pos hs]
  · intro env assets amounts premiums initiator params hi
    unfold executeOperation
    rw [if_neg (by simp), if_pos hi]

/-- C8 witness: a non-owner caller cannot have produced a successful
`executeArbitrage` (vacuously instantiated at the owner), and concrete foreign
senders/initiators are rejected with an empty swap trace. -/
theorem settlement_authorization_checks_witness :
    (12 = wEnv.owner) ∧
    executeOperation wEnv [3] [100] [1] wEnv.self (encodeArbParams wParams) 99
        = ([], .error .Unauthorized) ∧
    executeOperation wEnv [3] [100] [1] 99 (encodeArbParams wParams) wEnv.pool
        = ([], .error .Unauthorized) :=
  ⟨settlement_authorization_checks.1 wEnv 12 false 3 5 []
      ⟨11, [3], [5], [0], 11, [], (3, 5)⟩ rfl,
   settlement_authorization_checks.2.1 wEnv [3] [100] [1] wEnv.self
      (encodeArbParams wParams) 99 (by decide),
   settlement_authorization_checks.2.2 wEnv [3] [100] [1] 99
      (encodeArbParams wParams) (by decide)⟩

/-- C9: the decimal lookup returns the listed decimal count for any address in
`TOKEN_DECIMALS`, returns 18 for any address absent from it, and the loan
amount is the notional scaled by `10 ^ tokenDecimals`. -/
theorem tokenDecimals_fallback_18 :
    (∀ a : Addr, TOKEN_DECIMALS.lookup a = none → tokenDecimals a = 18) ∧
    (∀ (a : Addr) (d : ℕ), (a, d) ∈ TOKEN_DECIMALS → tokenDecimals a = d) ∧
    (∀ (n : ℕ) (a : Addr), TOKEN_DECIMALS.lookup a = none →
      loanAmount n a = n * 10 ^ 18) := by
  have hnd : (TOKEN_DECIMALS.map Prod.fst).Nodup := by decide
  refine ⟨?_, ?_, ?_⟩
  · intro a h
    unfold tokenDecimals
    rw [h]
    rfl
  · intro a d h
    unfold tokenDecimals
    rw [lookup_of_mem_of_nodupKeys TOKEN_DECIMALS a d hnd h]
    rfl
  · intro n a h
    unfold loanAmount tokenDecimals
    rw [h]
    rfl

/-- C9 witness: an address absent from the table gets 18 decimals and a loan
sized `n * 10^18`; mainnet USDC, present in the table, gets 6. -/
theorem tokenDecimals_fallback_18_witness :
    tokenDecimals 0x1234 = 18 ∧
    tokenDecimals 0xa0b86991c6218b36c1d19d4a2e9eb0ce3606eb48 = 6 ∧
    loanAmount 10000 0x1234 = 10000 * 10 ^ 18 :=
  ⟨tokenDecimals_fallback_18.1 0x1234 rfl,
   tokenDecimals_fallback_18.2.1 0xa0b86991c6218b36c1d19d4a2e9eb0ce3606eb48 6 (by decide),
   tokenDecimals_fallback_18.2.2 10000 0x1234 rfl⟩

/-- C10: every `ArbParams` the live scan loop builds has zero minimum outputs,
zero Curve pools and coin indices, venue codes drawn from
{`DEX_UNISWAP_V3`, `DEX_SUSHISWAP`} (never `DEX_CURVE`), and fee tiers equal
to the chosen quote's fee defaulted to 3000 when absent. -/
theorem buildArbParams_no_slippage_no_curve (best : Opp) (tokenA tokenB : Addr) :
    (buildArbParams best tokenA tokenB).amountOutMin1 = 0 ∧
    (buildArbParams best tokenA tokenB).amountOutMin2 = 0 ∧
    (buildArbParams best tokenA tokenB).curvePool1 = 0 ∧
    (buildArbParams best tokenA tokenB).curvePool2 = 0 ∧
    (buildArbParams best tokenA tokenB).curveI1 = 0 ∧
    (buildArbParams best tokenA tokenB).curveJ1 = 0 ∧
    (buildArbParams best tokenA tokenB).curveI2 = 0 ∧
    (buildArbParams best tokenA tokenB).curveJ2 = 0 ∧
    ((buildArbParams best tokenA tokenB).dex1 = DEX_UNISWAP_V3 ∨
      (buildArbParams best tokenA tokenB).dex1 = DEX_SUSHISWAP) ∧
    ((buildArbParams best tokenA tokenB).dex2 = DEX_UNISWAP_V3 ∨
      (buildArbParams best tokenA tokenB).dex2 = DEX_SUSHISWAP) ∧
    (buildArbParams best tokenA tokenB).dex1 ≠ DEX_CURVE ∧
    (buildArbParams best tokenA tokenB).dex2 ≠ DEX_CURVE ∧
    (buildArbParams best tokenA tokenB).fee1 = best.buy.fee.getD 3000 ∧
    (buildArbParams best tokenA tokenB).fee2 = best.sell.fee.getD 3000 ∧
    (buildArbParams best tokenA tokenB).tokenBorrow = tokenA ∧
    (buildArbParams best tokenA tokenB).tokenIntermediate = tokenB := by
  unfold buildArbParams DEX_UNISWAP_V3 DEX_SUSHISWAP DEX_CURVE
  refine ⟨rfl, rfl, rfl, rfl, rfl, rfl, rfl, rfl, ?_, ?_, ?_, ?_, rfl, rfl, rfl, rfl⟩
  · by_cases h : best.buy.source = "uniswapV3" <;> simp [h]
  · by_cases h : best.sell.source = "uniswapV3" <;> simp [h]
  · by_cases h : best.buy.source = "uniswapV3" <;> simp [h]
  · by_cases h : best.sell.source = "uniswapV3" <;> simp [h]

/-- C3: for every pair of candidate quotes with distinct nonzero prices whose
spread clears the threshold, the matcher reports an opportunity whose
`profitBps` is `round(|price_a - price_b| / min(price_a, price_b) * 10000)`
and whose buy leg is the lower-priced quote, sell leg the higher-priced one. -/
theorem findArbitrageOpportunities_reports_formula (qs : List Quote) (minBps : ℚ)
    (a b : Quote) (hmem : (a, b) ∈ pairCandidates qs) (hab : a.price ≠ b.price)
    (ha : a.price ≠ 0) (hb : b.price ≠ 0)
    (hth : minBps ≤ (pairProfitBps a b : ℚ)) :
    ∃ o ∈ findArbitrageOpportunities qs minBps,
      o.profitBps = jsRound (|a.price - b.price| / min a.price b.price * 10000) ∧
      ((a.price < b.price ∧ o.buy = a ∧ o.sell = b) ∨
       (b.price < a.price ∧ o.buy = b ∧ o.sell = a)) := by
  refine ⟨mkOpp a b, ?_, rfl, ?_⟩
  · rw [mem_findArbitrageOpportunities]
    exact ⟨(a, b), hmem, evalPair_eq_some_of minBps a b ha hb hth⟩
  · by_cases hlt : a.price < b.price
    · exact Or.inl ⟨hlt, by simp [mkOpp, hlt], by simp [mkOpp, hlt]⟩
    · have hba : b.price < a.price := lt_of_le_of_ne (not_lt.mp hlt) (Ne.symm hab)
      exact Or.inr ⟨hba, by simp [mkOpp, hlt], by simp [mkOpp, hlt]⟩

/-- C3 witness: for the quotes priced 100.00 and 100.20 with threshold 10 the
reported opportunity carries the rounded 20 bps spread and buys the cheaper
quote. -/
theorem findArbitrageOpportunities_reports_formula_witness :
    ∃ o ∈ findArbitrageOpportunities [scenarioQuoteA, scenarioQuoteB] 10,
      o.profitBps = jsRound (|scenarioQuoteA.price - scenarioQuoteB.price| /
          min scenarioQuoteA.price scenarioQuoteB.price * 10000) ∧
      ((scenarioQuoteA.price < scenarioQuoteB.price ∧ o.buy = scenarioQuoteA ∧
          o.sell = scenarioQuoteB) ∨
       (scenarioQuoteB.price < scenarioQuoteA.price ∧ o.buy = scenarioQuoteB ∧
          o.sell = scenarioQuoteA)) :=
  findArbitrageOpportunities_reports_formula [scenarioQuoteA, scenarioQuoteB] 10
    scenarioQuoteA scenarioQuoteB
    (by simp [pairCandidates])
    (by norm_num [scenarioQuoteA, scenarioQuoteB])
    (by norm_num [scenarioQuoteA])
    (by norm_num [scenarioQuoteB])
    (by norm_num [pairProfitBps, pairSpread, jsRound, scenarioQuoteA, scenarioQuoteB,
      abs_of_nonneg, abs_of_nonpos])

/-- C4: nothing below the caller-supplied threshold is ever reported, a pair
whose `profitBps` equals the threshold is retained, and for the quotes priced
100.00 and 100.20 threshold 10 yields exactly one opportunity of 20 bps while
threshold 25 yields none. -/
theorem findArbitrageOpportunities_threshold_filter (qs : List Quote) (minBps : ℚ)
    (a b : Quote) :
    (∀ o ∈ findArbitrageOpportunities qs minBps, minBps ≤ (o.profitBps : ℚ)) ∧
    ((a, b) ∈ pairCandidates qs → a.price ≠ 0 → b.price ≠ 0 →
      (pairProfitBps a b : ℚ) = minBps →
      mkOpp a b ∈ findArbitrageOpportunities qs minBps) ∧
    (findArbitrageOpportunities [scenarioQuoteA, scenarioQuoteB] 10
        = [mkOpp scenarioQuoteA scenarioQuoteB] ∧
      (mkOpp scenarioQuoteA scenarioQuoteB).profitBps = 20) ∧
    findArbitrageOpportunities [scenarioQuoteA, scenarioQuoteB] 25 = [] := by
  refine ⟨?_, ?_, ⟨?_, ?_⟩, ?_⟩
  · intro o ho
    rw [mem_findArbitrageOpportunities] at ho
    obtain ⟨ab, -, hev⟩ := ho
    obtain ⟨-, -, hth, rfl⟩ := of_evalPair_eq_some _ _ _ hev
    exact hth
  · intro hmem ha hb heq
    rw [mem_findArbitrageOpportunities]
    exact ⟨(a, b), hmem, evalPair_eq_some_of minBps a b ha hb (le_of_eq heq.symm)⟩
  · norm_num [findArbitrageOpportunities, pairCandidates, evalPair, mkOpp, pairProfitBps,
      pairSpread, jsRound, scenarioQuoteA, scenarioQuoteB, sortByProfitDesc, insertDesc,
      List.filterMap_cons, List.filterMap_nil, List.foldl_cons, List.foldl_nil,
      abs_of_nonneg, abs_of_nonpos]
  · norm_num [mkOpp, pairProfitBps, pairSpread, jsRound, scenarioQuoteA, scenarioQuoteB,
      abs_of_nonneg, abs_of_nonpos]
  · norm_num [findArbitrageOpportunities, pairCandidates, evalPair, pairProfitBps,
      pairSpread, jsRound, scenarioQuoteA, scenarioQuoteB, sortByProfitDesc, insertDesc,
      List.filterMap_cons, List.filterMap_nil, List.foldl_cons, List.foldl_nil,
      abs_of_nonneg, abs_of_nonpos]

/-- C4 witness: the 20 bps pair is retained when the threshold is exactly
20 bps (equality is retained, not discarded). -/
theorem findArbitrageOpportunities_threshold_filter_witness :
    mkOpp scenarioQuoteA scenarioQuoteB ∈
      findArbitrageOpportunities [scenarioQuoteA, scenarioQuoteB] 20 :=
  (findArbitrageOpportunities_threshold_filter [scenarioQuoteA, scenarioQuoteB] 20
      scenarioQuoteA scenarioQuoteB).2.1
    (by simp [pairCandidates])
    (by norm_num [scenarioQuoteA])
    (by norm_num [scenarioQuoteB])
    (by norm_num [pairProfitBps, pairSpread, jsRound, scenarioQuoteA, scenarioQuoteB,
      abs_of_nonneg, abs_of_nonpos])

/-- C7 counterexample: with threshold 0 two equal-priced quotes survive the
filter (their 0 bps is not strictly below 0) and the resulting opportunity has
`buy.price = sell.price`, so `buyQuote.price < sellQuote.price` fails for
"any threshold value". -/
theorem opportunity_equal_prices_counterexample :
    (mkOpp quoteEqualA quoteEqualB ∈
        findArbitrageOpportunities [quoteEqualA, quoteEqualB] 0) ∧
    ¬((mkOpp quoteEqualA quoteEqualB).buy.price <
        (mkOpp quoteEqualA quoteEqualB).sell.price) := by
  constructor
  · rw [mem_findArbitrageOpportunities]
    refine ⟨(quoteEqualA, quoteEqualB), by simp [pairCandidates],
      evalPair_eq_some_of 0 _ _ (by norm_num [quoteEqualA]) (by norm_num [quoteEqualB]) ?_⟩
    norm_num [pairProfitBps, pairSpread, jsRound, quoteEqualA, quoteEqualB]
  · norm_num [mkOpp, quoteEqualA, quoteEqualB]

/-- C7 amended: whenever the threshold is at least one basis point (the code
default is 10 and the live loop uses 15), every reported opportunity does
satisfy `buy.price < sell.price` strictly. -/
theorem opportunity_buy_lt_sell_of_pos_threshold (qs : List Quote) (minBps : ℚ)
    (h1 : 1 ≤ minBps) (o : Opp) (ho : o ∈ findArbitrageOpportunities qs minBps) :
    o.buy.price < o.sell.price := by
  rw [mem_findArbitrageOpportunities] at ho
  obtain ⟨ab, -, hev⟩ := ho
  obtain ⟨-, -, hth, rfl⟩ := of_evalPair_eq_some _ _ _ hev
  have hbps : 1 ≤ pairProfitBps ab.1 ab.2 := by exact_mod_cast le_trans h1 hth
  exact mkOpp_buy_lt_sell _ _ (price_ne_of_one_le_pairProfitBps _ _ hbps)

/-- C7 amended witness: at threshold 10 the scenario opportunity has a strictly
cheaper buy leg. -/
theorem opportunity_buy_lt_sell_of_pos_threshold_witness :
    (mkOpp scenarioQuoteA scenarioQuoteB).buy.price <
      (mkOpp scenarioQuoteA scenarioQuoteB).sell.price :=
  opportunity_buy_lt_sell_of_pos_threshold [scenarioQuoteA, scenarioQuoteB] 10
    (by norm_num) (mkOpp scenarioQuoteA scenarioQuoteB)
    (by
      rw [mem_findArbitrageOpportunities]
      refine ⟨(scenarioQuoteA, scenarioQuoteB), by simp [pairCandidates],
        evalPair_eq_some_of 10 _ _ (by norm_num [scenarioQuoteA])
          (by norm_num [scenarioQuoteB]) ?_⟩
      norm_num [pairProfitBps, pairSpread, jsRound, scenarioQuoteA, scenarioQuoteB,
        abs_of_nonneg, abs_of_nonpos])

/-- C5: a V3 quote is only ever produced from a pool with nonzero liquidity; a
Sushi pair with a zero reserve yields no quote, so a zero reserve is never
used as a divisor, and every produced Sushi quote comes from a pair whose two
reserves are nonzero; finally both legs of every opportunity are members of
the scanned candidate set, so an excluded pool never appears in an
opportunity. -/
theorem scan_excludes_zero_liquidity :
    (∀ (env : ScanEnv) (tokenA : Addr) (q : Quote), q ∈ scanUniswapV3Pools env tokenA →
      ∃ fee p, fee ∈ feeTiers ∧ env.v3pool fee = some p ∧ p.liquidity ≠ 0 ∧
        q.liquidity = some p.liquidity) ∧
    (∀ (env : ScanEnv) (tokenA : Addr) (p : V2Pair), env.sushiPair = some p →
      p.reserve0 = 0 ∨ p.reserve1 = 0 → scanSushiswapPair env tokenA = none) ∧
    (∀ (env : ScanEnv) (tokenA : Addr) (q : Quote), scanSushiswapPair env tokenA = some q →
      ∃ p, env.sushiPair = some p ∧ p.reserve0 ≠ 0 ∧ p.reserve1 ≠ 0) ∧
    (∀ (env : ScanEnv) (tokenA : Addr) (minBps : ℚ) (o : Opp),
      o ∈ findArbitrageOpportunitiesOnScan env tokenA minBps →
      o.buy ∈ scanQuotes env tokenA ∧ o.sell ∈ scanQuotes env tokenA) := by
  refine ⟨?_, ?_, ?_, ?_⟩
  · intro env tokenA q h
    obtain ⟨fee, p, adj, hfee, hv, hliq, hadj, hq⟩ := mem_scanUniswapV3Pools env tokenA q h
    exact ⟨fee, p, hfee, hv, hliq, by rw [hq]⟩
  · intro env tokenA p hp h0
    unfold scanSushiswapPair
    rw [hp]
    dsimp only
    rw [if_pos h0]
  · intro env tokenA q h
    unfold scanSushiswapPair at h
    cases hp : env.sushiPair with
    | none => rw [hp] at h; simp at h
    | some p =>
      rw [hp] at h
      dsimp only at h
      by_cases h0 : p.reserve0 = 0 ∨ p.reserve1 = 0
      · rw [if_pos h0] at h; simp at h
      · push_neg at h0
        exact ⟨p, rfl, h0.1, h0.2⟩
  · intro env tokenA minBps o h
    unfold findArbitrageOpportunitiesOnScan at h
    exact opp_legs_mem _ _ _ h

/-- C5 witness: a Sushi pair with reserve0 = 0 is excluded, and the concrete
produced Sushi quote of `wSushiEnv` originates from nonzero reserves. -/
theorem scan_excludes_zero_liquidity_witness :
    scanSushiswapPair wSushiZeroEnv 1 = none ∧
    (∃ p, wSushiEnv.sushiPair = some p ∧ p.reserve0 ≠ 0 ∧ p.reserve1 ≠ 0) :=
  ⟨scan_excludes_zero_liquidity.2.1 wSushiZeroEnv 1 ⟨7, 0, 4, 1⟩ rfl (Or.inl rfl),
   scan_excludes_zero_liquidity.2.2.1 wSushiEnv 1
     ⟨7, none, jsPrice (4 * SCALE / 2), none, "sushiswap"⟩ rfl⟩

/-- C6 counterexample: `cxPool1` and `cxPool2` have integer fixed-point prices
9007199254780000 and 9024763293326821, exactly 19.5 bps apart, which the
claimed formula rounds to 20 bps — meeting a 20 bps threshold.  The quotes the
scanner stores carry only the float conversions of these integers (the second
converts to 9024763293326820), whose spread rounds to 19 bps, and the matcher
— comparing the stored conversions — reports nothing.  The floating
conversion therefore feeds the spread comparison, and the integer value is
not authoritative. -/
theorem float_conversion_feeds_spread_comparison :
    v3PriceScaled cxPool1 1 = some 9007199254780000 ∧
    v3PriceScaled cxPool2 1 = some 9024763293326821 ∧
    jsRound (|(9024763293326821 : ℚ) / 10 ^ 18 - (9007199254780000 : ℚ) / 10 ^ 18| /
        min ((9024763293326821 : ℚ) / 10 ^ 18) ((9007199254780000 : ℚ) / 10 ^ 18)
          * 10000) = 20 ∧
    findArbitrageOpportunitiesOnScan cxScanEnv 1 20 = [] := by
  refine ⟨by decide, by decide, ?_, ?_⟩
  · norm_num [jsRound, abs_of_nonneg, abs_of_nonpos]
  · norm_num [findArbitrageOpportunitiesOnScan, scanQuotes, scanUniswapV3Pools,
      scanSushiswapPair, feeTiers, cxScanEnv, cxPool1, cxPool2, v3PriceScaled, SCALE, Q192,
      jsPrice, jsNum_cx1, jsNum_cx2, findArbitrageOpportunities, pairCandidates, evalPair,
      pairProfitBps, pairSpread, jsRound, mkOpp, sortByProfitDesc, insertDesc,
      Option.toList, List.filterMap_cons, List.filterMap_nil, List.foldl_cons,
      List.foldl_nil, abs_of_nonneg, abs_of_nonpos]

/-- C6 amended: the integer fixed-point computation is only the upstream
source of the stored quote price — every V3 quote's `price` field equals the
float conversion `jsPrice` of the integer scaled value, and the integer value
itself is not retained, so ranking and spread comparisons operate on the
conversions; the encoded settlement parameters and the loan amount, however,
never depend on any price. -/
theorem price_conversion_isolated_from_encoding :
    (∀ (env : ScanEnv) (tokenA : Addr) (q : Quote), q ∈ scanUniswapV3Pools env tokenA →
      ∃ fee p adj, env.v3pool fee = some p ∧ v3PriceScaled p tokenA = some adj ∧
        q.price = jsPrice adj) ∧
    (∀ (o1 o2 : Opp) (tokenA tokenB : Addr),
      o1.buy.source = o2.buy.source → o1.buy.fee = o2.buy.fee →
      o1.sell.source = o2.sell.source → o1.sell.fee = o2.sell.fee →
      buildArbParams o1 tokenA tokenB = buildArbParams o2 tokenA tokenB) ∧
    (∀ (n : ℕ) (a : Addr), loanAmount n a = n * 10 ^ tokenDecimals a) := by
  refine ⟨?_, ?_, ?_⟩
  · intro env tokenA q h
    obtain ⟨fee, p, adj, hfee, hv, hliq, hadj, hq⟩ := mem_scanUniswapV3Pools env tokenA q h
    exact ⟨fee, p, adj, hv, hadj, by rw [hq]⟩
  · intro o1 o2 tokenA tokenB hbs hbf hss hsf
    unfold buildArbParams
    rw [hbs, hbf, hss, hsf]
  · intro n a
    rfl

/-- C6 amended witness: two opportunities over the same venues and fee tiers
but entirely different prices encode to identical settlement parameters. -/
theorem price_conversion_isolated_from_encoding_witness :
    buildArbParams (mkOpp scenarioQuoteA scenarioQuoteB) 3 4
      = buildArbParams (mkOpp altQuoteA altQuoteB) 3 4 :=
  price_conversion_isolated_from_encoding.2.1
    (mkOpp scenarioQuoteA scenarioQuoteB) (mkOpp altQuoteA altQuoteB) 3 4
    (by norm_num [mkOpp, scenarioQuoteA, scenarioQuoteB, altQuoteA, altQuoteB])
    (by norm_num [mkOpp, scenarioQuoteA, scenarioQuoteB, altQuoteA, altQuoteB])
    (by norm_num [mkOpp, scenarioQuoteA, scenarioQuoteB, altQuoteA, altQuoteB])
    (by norm_num [mkOpp, scenarioQuoteA, scenarioQuoteB, altQuoteA, altQuoteB])
